import Mathlib

/-!
Verification of the ZawyaX equity-tokenization engine against its
natural-language specification.

The definitions below are a shallow embedding of the Solidity sources
`src/Factory.sol`, `src/libraries/OrderBookLib.sol`, `src/EquityToken.sol`
and `src/utils/DataTypes.sol` (Solidity 0.8.25, checked arithmetic).

Modelling conventions:
- `uint256` values are `Nat`; Solidity 0.8 checked arithmetic reverts on
  overflow/underflow, so no silent wrap-around occurs and subtraction
  underflow is modelled as an explicit error where it can fire.
- Addresses are `Nat`; the Factory contract's own address (`address(this)`)
  is the constant `thisAddr`; the zero address is `0`.
- ERC-20 token ledgers are external collaborators (spec section 6); they are
  modelled as balance maps with `transfer`/`transferFrom` failing exactly on
  insufficient balance (allowance bookkeeping is folded into that failure
  mode).  `EquityToken` overrides `transfer`/`transferFrom` with a
  `whenNotPaused` guard, which is modelled by `equityTransfer`.
- `keccak256`-generated order ids are modelled as an oracle input
  (`genId` parameter); trade ids by the injective stand-in `mkTradeId`.
- A Solidity external call reverts all state changes when any `require`
  fails; `callOp` applies that call-boundary semantics to the step
  functions, which thread state in source order and propagate errors.
- Every currency/equity movement is also appended to a transfer log
  (mirroring the ERC-20 `Transfer` events), so that statements of the form
  "X receives amount A" can be read off the log without aliasing caveats.
-/

/-- Error outcomes, one per `require`/revert site reachable in the modelled
code paths.  The names follow the Solidity revert strings. -/
inductive Err where
  | factoryPaused
  | projectNotFound
  | marketDisabled
  | zeroShares
  | zeroPrice
  | invalidExpiration
  | mustBuyAtLeastOne
  | notEnoughSharesToSell
  | valuationZero
  | sharesZero
  | sharesTooMany
  | currencyNotWhitelisted
  | arithmeticUnderflow
  | notProjectFounder
  | zeroAmount
  | notEnoughFunds
  | notFactoryAdmin
  | notYourOrder
  | notCancellable
  | erc20InsufficientBalance
  | equityTokenPaused
  | maxSupplyExceeded
  deriving DecidableEq, Repr

/-- OrderType from DataTypes.sol. -/
inductive OrderType where
  | BUY
  | SELL
  deriving DecidableEq, Repr

/-- OrderStatus from DataTypes.sol.  `ACTIVE` is the first constructor, so a
Solidity mapping's zero-initialised default status is `ACTIVE`. -/
inductive OrderStatus where
  | ACTIVE
  | FILLED
  | CANCELLED
  | PARTIALLY_FILLED
  deriving DecidableEq, Repr

/-- Order struct from DataTypes.sol. -/
structure Order where
  orderId : Nat
  projectId : Nat
  trader : Nat
  orderType : OrderType
  shares : Nat
  sharesRemaining : Nat
  pricePerShare : Nat
  totalValue : Nat
  timestamp : Nat
  expirationTime : Nat
  status : OrderStatus
  isMarketOrder : Bool
  deriving DecidableEq, Repr

/-- Zero-initialised Order, the value of an untouched mapping slot. -/
def defOrder : Order :=
  ⟨0, 0, 0, .BUY, 0, 0, 0, 0, 0, 0, .ACTIVE, false⟩

/-- Trade struct from DataTypes.sol. -/
structure Trade where
  tradeId : Nat
  buyOrderId : Nat
  sellOrderId : Nat
  buyer : Nat
  seller : Nat
  shares : Nat
  pricePerShare : Nat
  totalValue : Nat
  timestamp : Nat
  deriving DecidableEq, Repr

/-- MarketStats struct from DataTypes.sol. -/
structure MarketStats where
  lastPrice : Nat
  highPrice24h : Nat
  lowPrice24h : Nat
  volume24h : Nat
  totalTrades : Nat
  bestBidPrice : Nat
  bestAskPrice : Nat
  spread : Nat
  lastUpdateTime : Nat
  deriving DecidableEq, Repr

/-- Zero-initialised MarketStats. -/
def defStats : MarketStats := ⟨0, 0, 0, 0, 0, 0, 0, 0, 0⟩

/-- Project struct from DataTypes.sol (the string `name` field and the
`ipfsCID` metadata carry no behaviour; `ipfsCID` is kept as a `Nat`). -/
structure Project where
  equityToken : Nat
  purchaseToken : Nat
  valuationUSD : Nat
  totalShares : Nat
  availableSharesToSell : Nat
  sharesSold : Nat
  pricePerShare : Nat
  availableFunds : Nat
  ipfsCID : Nat
  founder : Nat
  existsFlag : Bool
  verified : Bool
  secondaryMarketEnabled : Bool
  deriving DecidableEq, Repr

/-- Zero-initialised Project (`existsFlag = false`). -/
def defProject : Project :=
  ⟨0, 0, 0, 0, 0, 0, 0, 0, 0, 0, false, false, false⟩

/-- Record of one token movement (mirror of the ERC-20 Transfer event):
token, source, destination, amount.  Mints use source `0`. -/
structure Xfer where
  token : Nat
  src : Nat
  dst : Nat
  amount : Nat
  deriving DecidableEq, Repr

/-- Factory.TOTAL_SHARES = 1_000_000 * 1e18. -/
def TOTAL_SHARES : Nat := 1000000 * 10 ^ 18

/-- Factory.BASIS_POINTS = 10_000. -/
def BASIS_POINTS : Nat := 10000

/-- The Factory contract's own address (`address(this)`), an arbitrary
fixed non-zero address. -/
def thisAddr : Nat := 1

/-- AccessControl role identifiers: DEFAULT_ADMIN_ROLE and the Factory's
ADMIN_ROLE, modelled as distinct naturals. -/
def DEFAULT_ADMIN_ROLE : Nat := 0

/-- Factory.ADMIN_ROLE (keccak of "ADMIN_ROLE" in the source). -/
def ADMIN_ROLE : Nat := 1

/-- Update a one-key map. -/
def upd {α : Type} (m : Nat → α) (k : Nat) (v : α) : Nat → α :=
  fun k' => if k' = k then v else m k'

/-- Update a two-key balance map at (token, holder). -/
def updBal (b : Nat → Nat → Nat) (t h v : Nat) : Nat → Nat → Nat :=
  fun t' h' => if t' = t ∧ h' = h then v else b t' h'

/-- Storage of the Factory contract (Factory.sol) together with the external
collaborator state it interacts with: AccessControl roles, the currency
whitelist and decimals, ERC-20 balance ledgers, the per-EquityToken pause
flag and mintable remainder, and a transfer log. -/
structure FState where
  projects : Nat → Project
  orders : Nat → Order
  userOrders : Nat → List Nat
  projectBuyOrders : Nat → List Nat
  projectSellOrders : Nat → List Nat
  projectTrades : Nat → List Trade
  projectMarketStats : Nat → MarketStats
  projectCounter : Nat
  orderCounter : Nat
  tradeCounter : Nat
  PLATFORM_FEE : Nat
  TRADING_FEE_RATE : Nat
  TradeFeeAmount : Nat
  factoryPaused : Bool
  roles : Nat → Nat → Bool
  whitelisted : Nat → Bool
  tokenDecimals : Nat → Nat
  balances : Nat → Nat → Nat
  equityPaused : Nat → Bool
  tokSharesToSell : Nat → Nat
  nextTokenAddr : Nat
  log : List Xfer

/-- Plain ERC-20 transfer (OpenZeppelin ERC20._update): fails exactly when
the source balance is insufficient (allowance bookkeeping for
`transferFrom` is folded into this failure mode); decrements the source
balance, then increments the destination balance, and records the movement
in the log. -/
def erc20Transfer (s : FState) (token src dst amount : Nat) : Except Err FState :=
  if s.balances token src < amount then .error .erc20InsufficientBalance
  else
    let b1 := updBal s.balances token src (s.balances token src - amount)
    let b2 := updBal b1 token dst (b1 token dst + amount)
    .ok { s with balances := b2, log := s.log ++ [⟨token, src, dst, amount⟩] }

/-- EquityToken.transfer / transferFrom: `whenNotPaused` guard on top of the
plain ERC-20 transfer. -/
def equityTransfer (s : FState) (token src dst amount : Nat) : Except Err FState :=
  if s.equityPaused token then .error .equityTokenPaused
  else erc20Transfer s token src dst amount

/-- EquityToken.mint (EquityToken.sol lines 43-47): requires
`amount <= sharesToSell`, mints `amount` to `dst` and decrements the
token's `sharesToSell`.  `_mint` ignores the pause flag (only the
`transfer`/`transferFrom` overrides are `whenNotPaused`). -/
def equityMint (s : FState) (token dst amount : Nat) : Except Err FState :=
  if s.tokSharesToSell token < amount then .error .maxSupplyExceeded
  else
    .ok { s with
            balances := updBal s.balances token dst (s.balances token dst + amount),
            tokSharesToSell := upd s.tokSharesToSell token (s.tokSharesToSell token - amount),
            log := s.log ++ [⟨token, 0, dst, amount⟩] }

/-- Factory.createProject (Factory.sol lines 111-183).  Validates the
parameters, deploys a fresh EquityToken (whose constructor mints the
platform-fee shares to the factory and `TOTAL_SHARES − sharesToSell −
platformFee` to the founder, records `sharesToSell` as the mintable
remainder, and pauses transfers), computes
`price = valuationUSD * 10^decimals / TOTAL_SHARES`, and stores the new
project.  Returns the new project id. -/
def createProject (s : FState) (caller : Nat)
    (ipfsCID valuationUSD sharesToSell purchaseToken : Nat) :
    Except Err (FState × Nat) :=
  if s.factoryPaused then .error .factoryPaused
  else if valuationUSD = 0 then .error .valuationZero
  else if sharesToSell = 0 then .error .sharesZero
  else if TOTAL_SHARES < sharesToSell then .error .sharesTooMany
  else if ¬ s.whitelisted purchaseToken then .error .currencyNotWhitelisted
  else
    let platformFee := sharesToSell * s.PLATFORM_FEE / BASIS_POINTS
    -- new EquityToken(...): the constructor re-checks sharesToSell ≤ TOTAL_SHARES
    -- (already ensured above) and performs the two mints; the founder mint
    -- `TOTAL_SHARES - sharesToSell - platformFee` is checked arithmetic.
    if TOTAL_SHARES - sharesToSell < platformFee then .error .arithmeticUnderflow
    else
      let tok := s.nextTokenAddr
      let b1 := updBal s.balances tok thisAddr (s.balances tok thisAddr + platformFee)
      let b2 := updBal b1 tok caller (b1 tok caller + (TOTAL_SHARES - sharesToSell - platformFee))
      let s1 : FState :=
        { s with balances := b2,
                 equityPaused := upd s.equityPaused tok true,
                 tokSharesToSell := upd s.tokSharesToSell tok sharesToSell,
                 nextTokenAddr := s.nextTokenAddr + 1,
                 log := s.log ++ [⟨tok, 0, thisAddr, platformFee⟩,
                                  ⟨tok, 0, caller, TOTAL_SHARES - sharesToSell - platformFee⟩] }
      -- sharesToSellAfterPlatformFee = sharesToSell - platformFee (checked)
      if sharesToSell < platformFee then .error .arithmeticUnderflow
      else
        let stableUnit := 10 ^ (s.tokenDecimals purchaseToken)
        let price := valuationUSD * stableUnit / TOTAL_SHARES
        let projectId := s1.projectCounter
        let p : Project :=
          { equityToken := tok, purchaseToken := purchaseToken,
            valuationUSD := valuationUSD, totalShares := TOTAL_SHARES,
            availableSharesToSell := sharesToSell - platformFee,
            sharesSold := 0, pricePerShare := price, availableFunds := 0,
            ipfsCID := ipfsCID, founder := caller,
            existsFlag := true, verified := false, secondaryMarketEnabled := false }
        .ok ({ s1 with projectCounter := s1.projectCounter + 1,
                       projects := upd s1.projects projectId p }, projectId)

/-- Factory.buyShares (Factory.sol lines 188-217): validates, computes
`cost = sharesAmount * pricePerShare / 1e18`, updates the project's
bookkeeping, pulls `cost` of the purchase currency from the buyer, and
mints `sharesAmount` equity tokens to the buyer. -/
def buyShares (s : FState) (caller : Nat) (projectId sharesAmount : Nat) :
    Except Err FState :=
  if s.factoryPaused then .error .factoryPaused
  else
    let p := s.projects projectId
    if p.existsFlag = false then .error .projectNotFound
    else if sharesAmount = 0 then .error .mustBuyAtLeastOne
    else if p.availableSharesToSell < sharesAmount then .error .notEnoughSharesToSell
    else
      let cost := sharesAmount * p.pricePerShare / 10 ^ 18
      let p' := { p with availableSharesToSell := p.availableSharesToSell - sharesAmount,
                         sharesSold := p.sharesSold + sharesAmount,
                         availableFunds := p.availableFunds + cost }
      let s1 := { s with projects := upd s.projects projectId p' }
      match erc20Transfer s1 p.purchaseToken caller thisAddr cost with
      | .error e => .error e
      | .ok s2 => equityMint s2 p.equityToken caller sharesAmount

/-- Factory.withdrawFunds (Factory.sol lines 221-254).  While the project is
unverified only the founder may withdraw; once verified only holders of
ADMIN_ROLE or DEFAULT_ADMIN_ROLE may.  A zero recipient defaults to the
founder (unverified branch) or to the caller (verified branch). -/
def withdrawFunds (s : FState) (caller : Nat) (projectId amount toAddr : Nat) :
    Except Err FState :=
  let p := s.projects projectId
  if p.existsFlag = false then .error .projectNotFound
  else if p.verified = false then
    if caller ≠ p.founder then .error .notProjectFounder
    else if amount = 0 then .error .zeroAmount
    else if p.availableFunds < amount then .error .notEnoughFunds
    else
      let s1 := { s with projects := upd s.projects projectId
                           { p with availableFunds := p.availableFunds - amount } }
      let dst := if toAddr = 0 then p.founder else toAddr
      erc20Transfer s1 p.purchaseToken thisAddr dst amount
  else
    if (s.roles ADMIN_ROLE caller || s.roles DEFAULT_ADMIN_ROLE caller) = false then
      .error .notFactoryAdmin
    else if amount = 0 then .error .zeroAmount
    else if p.availableFunds < amount then .error .notEnoughFunds
    else
      let s1 := { s with projects := upd s.projects projectId
                           { p with availableFunds := p.availableFunds - amount } }
      let dst := if toAddr = 0 then caller else toAddr
      erc20Transfer s1 p.purchaseToken thisAddr dst amount

/-- OrderBookLib._insertBuyOrder (OrderBookLib.sol lines 255-277): insert
`orderId` at the first index whose order has a price strictly below
`orders[orderId].pricePerShare` (append if none).  The price of the new
order is read from the `orders` mapping as the source does. -/
def insertBuyOrder (orders : Nat → Order) (orderId : Nat) : List Nat → List Nat
  | [] => [orderId]
  | i :: rest =>
    if (orders i).pricePerShare < (orders orderId).pricePerShare then
      orderId :: i :: rest
    else
      i :: insertBuyOrder orders orderId rest

/-- OrderBookLib._insertSellOrder (OrderBookLib.sol lines 279-301): insert
`orderId` at the first index whose order has a price strictly above
`orders[orderId].pricePerShare` (append if none). -/
def insertSellOrder (orders : Nat → Order) (orderId : Nat) : List Nat → List Nat
  | [] => [orderId]
  | i :: rest =>
    if (orders orderId).pricePerShare < (orders i).pricePerShare then
      orderId :: i :: rest
    else
      i :: insertSellOrder orders orderId rest

/-- OrderBookLib._removeBuyOrder / _removeSellOrder (OrderBookLib.sol lines
303-325, two identical bodies): remove the first occurrence of `orderId`
from the id array, shifting the tail left; no change when absent. -/
def removeOrder (orderId : Nat) : List Nat → List Nat
  | [] => []
  | i :: rest => if i = orderId then rest else i :: removeOrder orderId rest

/-- OrderBookLib._updateMarketStats (OrderBookLib.sol lines 409-430). -/
def updateMarketStats (stats : MarketStats) (now price volume : Nat) : MarketStats :=
  let s1 := { stats with lastPrice := price,
                         totalTrades := stats.totalTrades + 1,
                         volume24h := stats.volume24h + volume }
  let s2 := if s1.highPrice24h < price ∨ s1.highPrice24h = 0 then
              { s1 with highPrice24h := price } else s1
  let s3 := if price < s2.lowPrice24h ∨ s2.lowPrice24h = 0 then
              { s2 with lowPrice24h := price } else s2
  { s3 with lastUpdateTime := now }

/-- Stand-in for the keccak256 trade-id computation of OrderBookLib.sol line
386 (an injective combination of the same five inputs). -/
def mkTradeId (timestamp projectId buyOrderId sellOrderId tradeCounter : Nat) : Nat :=
  (((timestamp * 2 ^ 64 + projectId) * 2 ^ 64 + buyOrderId) * 2 ^ 64 + sellOrderId) * 2 ^ 64
    + tradeCounter

/-- Second half of OrderBookLib._executeTrade (OrderBookLib.sol lines
367-407): updates both orders' remaining quantity and status, removes a
fully filled side from its queue, appends the Trade record and updates the
market stats; returns the fee computed by the caller. -/
def executeTradeFinish (s3 : FState) (now projectId buyOrderId sellOrderId
    tradeCounter tradedShares fee : Nat) (buyOrder sellOrder : Order) :
    Except Err (FState × Nat) :=
  let tradePrice := sellOrder.pricePerShare
  let tradeValue := tradedShares * tradePrice
  let buyOrder1 := { buyOrder with sharesRemaining := buyOrder.sharesRemaining - tradedShares }
  let sellOrder1 := { sellOrder with sharesRemaining := sellOrder.sharesRemaining - tradedShares }
  let buyOrder2 :=
    if buyOrder1.sharesRemaining = 0 then { buyOrder1 with status := .FILLED }
    else { buyOrder1 with status := .PARTIALLY_FILLED }
  let s4 :=
    if buyOrder1.sharesRemaining = 0 then
      { s3 with projectBuyOrders := upd s3.projectBuyOrders projectId
                  (removeOrder buyOrderId (s3.projectBuyOrders projectId)) }
    else s3
  let sellOrder2 :=
    if sellOrder1.sharesRemaining = 0 then { sellOrder1 with status := .FILLED }
    else { sellOrder1 with status := .PARTIALLY_FILLED }
  let s5 :=
    if sellOrder1.sharesRemaining = 0 then
      { s4 with projectSellOrders := upd s4.projectSellOrders projectId
                  (removeOrder sellOrderId (s4.projectSellOrders projectId)) }
    else s4
  let s6 := { s5 with orders := upd (upd s5.orders buyOrderId buyOrder2) sellOrderId sellOrder2 }
  let trade : Trade :=
    { tradeId := mkTradeId now projectId buyOrderId sellOrderId tradeCounter,
      buyOrderId := buyOrderId, sellOrderId := sellOrderId,
      buyer := buyOrder.trader, seller := sellOrder.trader,
      shares := tradedShares, pricePerShare := tradePrice,
      totalValue := tradeValue, timestamp := now }
  let s7 := { s6 with projectTrades := upd s6.projectTrades projectId
                        (s6.projectTrades projectId ++ [trade]) }
  .ok ({ s7 with projectMarketStats := upd s7.projectMarketStats projectId
                   (updateMarketStats (s7.projectMarketStats projectId) now tradePrice tradeValue) },
       fee)

/-- OrderBookLib._executeTrade (OrderBookLib.sol lines 327-407): computes
the traded quantity `min(buyRemaining, sellRemaining)`, the execution price
(the resting sell order's price), the fee
`tradeValue * tradingFeeRate / 10000`, performs the three settlement
transfers (shares to the buyer, `tradeValue − fee` to the seller, and the
`buyerPaid − tradeValue` refund to the buyer when positive), then hands the
order/trade/stats bookkeeping to `executeTradeFinish`. -/
def executeTrade (s : FState) (now projectId buyOrderId sellOrderId
    tradingFeeRate tradeCounter : Nat) : Except Err (FState × Nat) :=
  let buyOrder := s.orders buyOrderId
  let sellOrder := s.orders sellOrderId
  let project := s.projects projectId
  let tradedShares :=
    if buyOrder.sharesRemaining < sellOrder.sharesRemaining then
      buyOrder.sharesRemaining
    else
      sellOrder.sharesRemaining
  let tradePrice := sellOrder.pricePerShare
  let tradeValue := tradedShares * tradePrice
  let fee := tradeValue * tradingFeeRate / 10000
  let sellerReceives := tradeValue - fee
  match equityTransfer s project.equityToken thisAddr buyOrder.trader tradedShares with
  | .error e => .error e
  | .ok s1 =>
    match erc20Transfer s1 project.purchaseToken thisAddr sellOrder.trader sellerReceives with
    | .error e => .error e
    | .ok s2 =>
      let buyerPaid := tradedShares * buyOrder.pricePerShare
      let step3 : Except Err FState :=
        if tradeValue < buyerPaid then
          erc20Transfer s2 project.purchaseToken thisAddr buyOrder.trader (buyerPaid - tradeValue)
        else
          .ok s2
      match step3 with
      | .error e => .error e
      | .ok s3 =>
        executeTradeFinish s3 now projectId buyOrderId sellOrderId tradeCounter
          tradedShares fee buyOrder sellOrder

/-- The while loop of OrderBookLib.matchOrdersForProject (OrderBookLib.sol
lines 132-161).  While both id arrays are non-empty, peek the head of each;
if the head buy's price is at least the head sell's price and both heads
are ACTIVE, execute a trade, increment `tradesExecuted` and OVERWRITE
`feeAmount` with this trade's fee (the source assigns, it does not
accumulate); otherwise break.  `fuel` bounds the iterations; callers pass
strictly more fuel than any possible number of iterations, since every
executed trade removes at least one id from one of the two arrays. -/
def matchLoop (fuel : Nat) (s : FState)
    (now projectId tradingFeeRate tradeCounter tradesExecuted feeAmount : Nat) :
    Except Err (FState × Nat × Nat) :=
  match fuel with
  | 0 => .ok (s, tradesExecuted, feeAmount)
  | fuel' + 1 =>
    match s.projectBuyOrders projectId, s.projectSellOrders projectId with
    | bestBuyId :: _, bestSellId :: _ =>
      let buyOrder := s.orders bestBuyId
      let sellOrder := s.orders bestSellId
      if sellOrder.pricePerShare ≤ buyOrder.pricePerShare ∧
          buyOrder.status = .ACTIVE ∧ sellOrder.status = .ACTIVE then
        match executeTrade s now projectId bestBuyId bestSellId tradingFeeRate tradeCounter with
        | .error e => .error e
        | .ok (s', fee) =>
          matchLoop fuel' s' now projectId tradingFeeRate tradeCounter (tradesExecuted + 1) fee
      else
        .ok (s, tradesExecuted, feeAmount)
    | _, _ => .ok (s, tradesExecuted, feeAmount)

/-- OrderBookLib.matchOrdersForProject (OrderBookLib.sol lines 116-162):
runs the matching loop with `tradesExecuted = 0` and `feeAmount = 0`
(Solidity named-return defaults). -/
def matchOrdersForProject (s : FState) (now projectId tradingFeeRate tradeCounter : Nat) :
    Except Err (FState × Nat × Nat) :=
  matchLoop ((s.projectBuyOrders projectId).length + (s.projectSellOrders projectId).length + 1)
    s now projectId tradingFeeRate tradeCounter 0 0

/-- Factory.matchOrders (Factory.sol lines 436-445): `whenNotPaused`; calls
matchOrdersForProject with the global TRADING_FEE_RATE and tradeCounter,
then increments tradeCounter and adds the RETURNED `feeAmount` (the fee of
the last executed trade only) to TradeFeeAmount. -/
def matchOrders (s : FState) (now projectId : Nat) : Except Err (FState × Nat × Nat) := do
  if s.factoryPaused then throw .factoryPaused
  let (s1, tradesExecuted, feeAmount) ←
    matchOrdersForProject s now projectId s.TRADING_FEE_RATE s.tradeCounter
  return ({ s1 with tradeCounter := s1.tradeCounter + 1,
                    TradeFeeAmount := s1.TradeFeeAmount + feeAmount },
          tradesExecuted, feeAmount)

/-- OrderBookLib.placeLimitOrder (OrderBookLib.sol lines 26-81).  Validates,
escrows the full cost (BUY: `shares * pricePerShare` of the purchase
currency) or the full share quantity (SELL: equity tokens, paused-guarded),
inserts the new id into the appropriate queue, and only THEN stores the new
order in the `orders` mapping and the user's order list (source line 75) —
so the insertion reads the mapping's default order (price 0) for the new
id.  `genId` stands for the keccak256-generated order id of source line 47. -/
def libPlaceLimitOrder (s : FState) (caller now genId : Nat) (projectId : Nat)
    (orderType : OrderType) (shares pricePerShare expirationTime : Nat) :
    Except Err (FState × Nat) := do
  let project := s.projects projectId
  if ¬ project.existsFlag then throw .projectNotFound
  if ¬ project.secondaryMarketEnabled then throw .marketDisabled
  if shares = 0 then throw .zeroShares
  if pricePerShare = 0 then throw .zeroPrice
  if ¬ (expirationTime = 0 ∨ now < expirationTime) then throw .invalidExpiration
  let orderId := genId
  let newOrder : Order :=
    { orderId := orderId, projectId := projectId, trader := caller,
      orderType := orderType, shares := shares, sharesRemaining := shares,
      pricePerShare := pricePerShare, totalValue := shares * pricePerShare,
      timestamp := now, expirationTime := expirationTime,
      status := .ACTIVE, isMarketOrder := false }
  let s1 ←
    match orderType with
    | .BUY =>
      (erc20Transfer s project.purchaseToken caller thisAddr (shares * pricePerShare)).map
        (fun t =>
          let buys := insertBuyOrder t.orders orderId (t.projectBuyOrders projectId)
          { t with projectBuyOrders := upd t.projectBuyOrders projectId buys })
    | .SELL =>
      (equityTransfer s project.equityToken caller thisAddr shares).map
        (fun t =>
          let sells := insertSellOrder t.orders orderId (t.projectSellOrders projectId)
          { t with projectSellOrders := upd t.projectSellOrders projectId sells })
  return ({ s1 with orders := upd s1.orders orderId newOrder,
                    userOrders := upd s1.userOrders caller (s1.userOrders caller ++ [orderId]) },
          orderId)

/-- Factory.placeLimitOrder (Factory.sol lines 333-353): `whenNotPaused`;
delegates to the library, increments orderCounter, then immediately runs
matchOrders for the project. -/
def placeLimitOrder (s : FState) (caller now genId : Nat) (projectId : Nat)
    (orderType : OrderType) (shares pricePerShare expirationTime : Nat) :
    Except Err (FState × Nat) := do
  if s.factoryPaused then throw .factoryPaused
  let (s1, orderId) ←
    libPlaceLimitOrder s caller now genId projectId orderType shares pricePerShare expirationTime
  let s2 := { s1 with orderCounter := s1.orderCounter + 1 }
  let (s3, _, _) ← matchOrders s2 now projectId
  return (s3, orderId)

/-- Factory.cancelOrder / OrderBookLib.cancelOrder (Factory.sol lines
357-359 with `whenNotPaused`, OrderBookLib.sol lines 86-111): only the
order's trader may cancel an ACTIVE or PARTIALLY_FILLED order; the
remaining escrow is returned, the id removed from its queue, and the order
marked CANCELLED. -/
def cancelOrder (s : FState) (caller : Nat) (orderId : Nat) : Except Err FState := do
  if s.factoryPaused then throw .factoryPaused
  let order := s.orders orderId
  if order.trader ≠ caller then throw .notYourOrder
  if ¬ (order.status = .ACTIVE ∨ order.status = .PARTIALLY_FILLED) then throw .notCancellable
  let project := s.projects order.projectId
  let s1 ←
    match order.orderType with
    | .BUY =>
      (erc20Transfer s project.purchaseToken thisAddr order.trader
          (order.sharesRemaining * order.pricePerShare)).map
        (fun t =>
          let buys := removeOrder orderId (t.projectBuyOrders order.projectId)
          { t with projectBuyOrders := upd t.projectBuyOrders order.projectId buys })
    | .SELL =>
      (equityTransfer s project.equityToken thisAddr order.trader order.sharesRemaining).map
        (fun t =>
          let sells := removeOrder orderId (t.projectSellOrders order.projectId)
          { t with projectSellOrders := upd t.projectSellOrders order.projectId sells })
  return { s1 with orders := upd s1.orders orderId { order with status := .CANCELLED } }

/-- The public state-changing engine operations named by the specification,
with their arguments (`genId` is the order-id oracle of placeLimitOrder). -/
inductive Op where
  | createProjectOp (ipfsCID valuationUSD sharesToSell purchaseToken : Nat)
  | buySharesOp (projectId sharesAmount : Nat)
  | withdrawFundsOp (projectId amount toAddr : Nat)
  | placeLimitOrderOp (projectId : Nat) (orderType : OrderType)
      (shares pricePerShare expirationTime genId : Nat)
  | cancelOrderOp (orderId : Nat)
  | matchOrdersOp (projectId : Nat)

/-- Run one public operation, threading the state in source order; any
failed `require` (or failed collaborator call) propagates as an error —
none of the Solidity functions catches an inner failure. -/
def runOp (op : Op) (caller now : Nat) (s : FState) : Except Err FState :=
  match op with
  | .createProjectOp c v sh t => (createProject s caller c v sh t).map (fun r => r.1)
  | .buySharesOp pid n => buyShares s caller pid n
  | .withdrawFundsOp pid a t => withdrawFunds s caller pid a t
  | .placeLimitOrderOp pid ty sh pr ex gid =>
    (placeLimitOrder s caller now gid pid ty sh pr ex).map (fun r => r.1)
  | .cancelOrderOp oid => cancelOrder s caller oid
  | .matchOrdersOp pid => (matchOrders s now pid).map (fun r => r.1)

/-- EVM call-boundary semantics: an external call that reverts leaves the
persistent state exactly as it was before the call. -/
def callOp (op : Op) (caller now : Nat) (s : FState) : FState :=
  match runOp op caller now s with
  | .ok s' => s'
  | .error _ => s

/-- True when the computation did not revert. -/
def isOk {α : Type} : Except Err α → Bool
  | .ok _ => true
  | .error _ => false

/-- Number of trades reported by a matchOrders result. -/
def okTrades : Except Err (FState × Nat × Nat) → Option Nat
  | .ok (_, n, _) => some n
  | .error _ => none

/-- Factory state right after the constructor (Factory.sol lines 89-104):
counters start at 1, no projects, empty books and ledgers. -/
def emptyState : FState :=
  { projects := fun _ => defProject, orders := fun _ => defOrder,
    userOrders := fun _ => [], projectBuyOrders := fun _ => [],
    projectSellOrders := fun _ => [], projectTrades := fun _ => [],
    projectMarketStats := fun _ => defStats,
    projectCounter := 1, orderCounter := 1, tradeCounter := 1,
    PLATFORM_FEE := 0, TRADING_FEE_RATE := 0, TradeFeeAmount := 0,
    factoryPaused := false, roles := fun _ _ => false,
    whitelisted := fun _ => false, tokenDecimals := fun _ => 0,
    balances := fun _ _ => 0, equityPaused := fun _ => false,
    tokSharesToSell := fun _ => 0, nextTokenAddr := 100, log := [] }

/-- Start state for the primary-issuance purchase scene of claim C4: the
currency token at address 50 is whitelisted with 6 decimals, and the buyer
(address 3) holds 10^10 currency base units. -/
def c4Start : FState :=
  { emptyState with
      whitelisted := fun c => c = 50,
      tokenDecimals := fun c => if c = 50 then 6 else 0,
      balances := fun t h => if t = 50 ∧ h = 3 then 10 ^ 10 else 0 }

/-- State after the founder (address 2) creates the C4 project: valuation
10^25, sharesToSell 100000 shares (of 18 decimals), currency 50. -/
def c4s1 : FState :=
  callOp (.createProjectOp 0 (10 ^ 25) (100000 * 10 ^ 18) 50) 2 0 c4Start

/-- State after the buyer (address 3) buys 1000 shares of project 1. -/
def c4s2 : FState := callOp (.buySharesOp 1 (1000 * 10 ^ 18)) 3 0 c4s1

/-- Secondary-market start state shared by the order-book scenes: project 1
exists with secondary market enabled, equity token 60 (unpaused, as after
the owner's unpause) and purchase currency 50; trader 3 holds currency,
trader 4 holds equity shares. -/
def bookStart : FState :=
  { emptyState with
      projects := upd emptyState.projects 1
        { defProject with equityToken := 60, purchaseToken := 50, founder := 2,
                          totalShares := TOTAL_SHARES, existsFlag := true,
                          secondaryMarketEnabled := true },
      balances := fun t h =>
        if t = 50 ∧ h = 3 then 10 ^ 9 else if t = 60 ∧ h = 4 then 1000 else 0 }

/-- Trader 3 places BUY 100 shares at price 1000 (order id 11). -/
def c7s1 : FState := callOp (.placeLimitOrderOp 1 .BUY 100 1000 0 11) 3 0 bookStart

/-- Trader 3 then places BUY 100 shares at the HIGHER price 1500 (id 12). -/
def c7s2 : FState := callOp (.placeLimitOrderOp 1 .BUY 100 1500 0 12) 3 0 c7s1

/-- Trader 4 places SELL 100 at 2000 (id 13), then SELL 100 at the HIGHER
price 3000 (id 14); neither crosses the resting buys. -/
def c7s3 : FState := callOp (.placeLimitOrderOp 1 .SELL 100 2000 0 13) 4 0 c7s2

/-- State after the fourth placement of the C7 scene. -/
def c7s4 : FState := callOp (.placeLimitOrderOp 1 .SELL 100 3000 0 14) 4 0 c7s3

/-- Trader 3 places BUY 100 at 5 (id 21) on a fresh book. -/
def c1s1 : FState := callOp (.placeLimitOrderOp 1 .BUY 100 5 0 21) 3 0 bookStart

/-- Trader 3 places BUY 100 at 10 (id 22); the id is appended behind 21. -/
def c1s2 : FState := callOp (.placeLimitOrderOp 1 .BUY 100 10 0 22) 3 0 c1s1

/-- Trader 4 places SELL 100 at 7 (id 23); the automatic match compares it
only with the head buy 21 (price 5) and stops. -/
def c1s3 : FState := callOp (.placeLimitOrderOp 1 .SELL 100 7 0 23) 4 0 c1s2

/-- State after an explicit matchOrders call on the crossed book. -/
def c1s4 : FState := callOp (.matchOrdersOp 1) 9 0 c1s3

/-- Book state with two simultaneously crossing fully-matching pairs:
buys [31, 32] and sells [33, 34], each ACTIVE for 100 shares at price 10,
with the trading fee rate at 100 basis points and the escrowed collateral
(2000 currency, 200 equity) held by the factory.  Such a book is reachable
by placing the four orders while the head of the buy queue is a
PARTIALLY_FILLED order (which blocks the per-placement auto-match) and then
cancelling that head. -/
def c3Start : FState :=
  { bookStart with
      TRADING_FEE_RATE := 100,
      orders := fun i =>
        if i = 31 ∨ i = 32 then
          { defOrder with orderId := i, projectId := 1, trader := 3,
                          orderType := .BUY, shares := 100, sharesRemaining := 100,
                          pricePerShare := 10, totalValue := 1000, status := .ACTIVE }
        else if i = 33 ∨ i = 34 then
          { defOrder with orderId := i, projectId := 1, trader := 4,
                          orderType := .SELL, shares := 100, sharesRemaining := 100,
                          pricePerShare := 10, totalValue := 1000, status := .ACTIVE }
        else defOrder,
      projectBuyOrders := upd emptyState.projectBuyOrders 1 [31, 32],
      projectSellOrders := upd emptyState.projectSellOrders 1 [33, 34],
      balances := fun t h =>
        if t = 50 ∧ h = thisAddr then 2000 else if t = 60 ∧ h = thisAddr then 200 else 0 }

/-- State after one matchOrders call on `c3Start`. -/
def c3s1 : FState := callOp (.matchOrdersOp 1) 9 0 c3Start

/-- A project book admits no match: every ACTIVE buy in the buy queue is
priced strictly below every ACTIVE sell in the sell queue. -/
def noCross (s : FState) (projectId : Nat) : Prop :=
  ∀ b ∈ s.projectBuyOrders projectId, ∀ a ∈ s.projectSellOrders projectId,
    (s.orders b).status = .ACTIVE → (s.orders a).status = .ACTIVE →
    (s.orders b).pricePerShare < (s.orders a).pricePerShare

/-- Start state for the C6/C10 withdrawal scenes: project 1 exists,
unverified, founder 2, with 500 of currency 50 available and escrowed. -/
def c6Start : FState :=
  { emptyState with
      projects := upd emptyState.projects 1
        { defProject with purchaseToken := 50, founder := 2, existsFlag := true,
                          availableFunds := 500 },
      balances := fun t h => if t = 50 ∧ h = thisAddr then 500 else 0 }

/-- State after the founder withdraws 200 with recipient 0. -/
def c6res : FState := callOp (.withdrawFundsOp 1 200 0) 2 0 c6Start

/-- Start state for the C2 witness: buy order 41 (100 shares at limit 12,
trader 3) rests against sell order 42 (80 shares at 10, trader 4); the
factory holds the escrowed 80 equity shares and 1200 currency; the fee
rate argument is 25 bp. -/
def c2Start : FState :=
  { bookStart with
      orders := fun i =>
        if i = 41 then
          { defOrder with orderId := 41, projectId := 1, trader := 3,
                          orderType := .BUY, shares := 100, sharesRemaining := 100,
                          pricePerShare := 12, totalValue := 1200, status := .ACTIVE }
        else if i = 42 then
          { defOrder with orderId := 42, projectId := 1, trader := 4,
                          orderType := .SELL, shares := 80, sharesRemaining := 80,
                          pricePerShare := 10, totalValue := 800, status := .ACTIVE }
        else defOrder,
      projectBuyOrders := upd emptyState.projectBuyOrders 1 [41],
      projectSellOrders := upd emptyState.projectSellOrders 1 [42],
      balances := fun t h =>
        if t = 50 ∧ h = thisAddr then 1200 else if t = 60 ∧ h = thisAddr then 80 else 0 }

/-- Result state of the witness trade. -/
def c2res : FState :=
  match executeTrade c2Start 7 1 41 42 25 1 with
  | .ok (t, _) => t
  | .error _ => c2Start

/-- Single-EquityToken view of the ledger: the balance map and the
token's `sharesToSell` field (the remaining mintable sellable supply).
The engine mutates equity balances only through the token's constructor,
`mint` and the (pause-guarded) transfers, so this view covers every
equity-balance mutation of the Factory. -/
structure TokState where
  bal : Nat → Nat
  toSell : Nat

/-- The balance-mutating EquityToken entry points reachable from the
engine: `mint` (EquityToken.sol lines 43-47) and `transfer`/`transferFrom`
(the ERC-20 movement; the pause guard only makes the call revert, which the
call-boundary semantics below renders as no state change). -/
inductive TokOp where
  | mint (dst amount : Nat)
  | transfer (src dst amount : Nat)

/-- Addresses an operation touches. -/
def TokOp.addrs : TokOp → List Nat
  | .mint dst _ => [dst]
  | .transfer src dst _ => [src, dst]

/-- One EquityToken call at the call boundary: a failed `require` (mint
above `sharesToSell`, transfer above the source balance, or a paused
transfer) reverts and leaves the token state unchanged. -/
def tokStep (s : TokState) : TokOp → TokState
  | .mint dst amount =>
    if s.toSell < amount then s
    else { bal := upd s.bal dst (s.bal dst + amount), toSell := s.toSell - amount }
  | .transfer src dst amount =>
    if s.bal src < amount then s
    else
      let b1 := upd s.bal src (s.bal src - amount)
      { s with bal := upd b1 dst (b1 dst + amount) }

/-- EquityToken constructor (EquityToken.sol lines 26-41): mints
`platformFee` to the factory and `TOTAL_SHARES − sharesToSell − platformFee`
to the founder, and records `sharesToSell` as the mintable remainder. -/
def tokInit (owner sharesToSell platformFee : Nat) : TokState :=
  let b1 := upd (fun _ => 0) thisAddr platformFee
  { bal := upd b1 owner (b1 owner + (TOTAL_SHARES - sharesToSell - platformFee)),
    toSell := sharesToSell }

/-- Run a sequence of token calls. -/
def runToks (s : TokState) : List TokOp → TokState
  | [] => s
  | op :: rest => runToks (tokStep s op) rest

/-- Sum of the balances of the listed holders. -/
def sumBal (bal : Nat → Nat) (holders : List Nat) : Nat := (holders.map bal).sum

theorem upd_same {α : Type} (m : Nat → α) (k : Nat) (v : α) :
    upd m k v k = v := by
  simp [upd]

theorem upd_other {α : Type} (m : Nat → α) (k k' : Nat) (v : α)
    (h : k' ≠ k) : upd m k v k' = m k' := by
  simp [upd, h]

theorem updBal_same (b : Nat → Nat → Nat) (t h v : Nat) :
    updBal b t h v t h = v := by
  simp [updBal]

theorem updBal_other_holder (b : Nat → Nat → Nat) (t h h' v : Nat)
    (hne : h' ≠ h) : updBal b t h v t h' = b t h' := by
  simp [updBal, hne]

/-- C4: creating a project over a 6-decimal purchase currency with
100,000 sellable shares and a fixed price of 10 currency units per share
(pricePerShare = valuation × 10^decimals / totalShares = 10 × 10^6), then
buying 1,000 shares, leaves availableSharesToSell = 99,000 shares and
availableFunds = 10,000 currency units, the cost being
amount × pricePerShare / 10^18. -/
theorem primary_sale_numbers :
    isOk (createProject c4Start 2 0 (10 ^ 25) (100000 * 10 ^ 18) 50) = true ∧
    (c4s1.projects 1).pricePerShare = 10 * 10 ^ 6 ∧
    isOk (buyShares c4s1 3 1 (1000 * 10 ^ 18)) = true ∧
    (c4s2.projects 1).availableSharesToSell = 99000 * 10 ^ 18 ∧
    (c4s2.projects 1).availableFunds = 10000 * 10 ^ 6 ∧
    (c4s2.projects 1).availableFunds =
      (1000 * 10 ^ 18) * (c4s1.projects 1).pricePerShare / 10 ^ 18 :=
  ⟨rfl, rfl, rfl, rfl, rfl, rfl⟩

/-- C7 (failing evaluation): after placing two buys (prices 1000 then 1500)
and two sells (prices 2000 then 3000) through placeLimitOrder, the buy
queue is [11, 12] with INCREASING prices 1000, 1500 (not non-increasing)
and the sell queue is [14, 13] with DECREASING prices 3000, 2000 (not
non-decreasing): because placeLimitOrder stores the order only after
inserting its id, the insert routines read the new order's price as the
mapping default 0, so buys are always appended and sells always prepended. -/
theorem book_not_price_sorted :
    c7s2.projectBuyOrders 1 = [11, 12] ∧
    (c7s2.orders 11).pricePerShare = 1000 ∧
    (c7s2.orders 12).pricePerShare = 1500 ∧
    ¬ (c7s2.orders 12).pricePerShare ≤ (c7s2.orders 11).pricePerShare ∧
    c7s4.projectSellOrders 1 = [14, 13] ∧
    (c7s4.orders 14).pricePerShare = 3000 ∧
    (c7s4.orders 13).pricePerShare = 2000 ∧
    ¬ (c7s4.orders 14).pricePerShare ≤ (c7s4.orders 13).pricePerShare :=
  ⟨rfl, rfl, rfl, by decide, rfl, rfl, rfl, by decide⟩

/-- C1 (failing evaluation): with resting buys 21 (price 5) and 22 (price
10) and sell 23 (price 7), matchOrders returns having executed zero trades,
yet the book still contains the ACTIVE buy 22 and the ACTIVE sell 23 with
buy price 10 ≥ sell price 7 — a crossed book remains, because the loop
only ever examines the heads of the (mis-ordered) queues. -/
theorem crossed_book_survives_matchOrders :
    okTrades (matchOrders c1s3 9 1) = some 0 ∧
    c1s4.projectBuyOrders 1 = [21, 22] ∧
    c1s4.projectSellOrders 1 = [23] ∧
    (c1s4.orders 22).status = .ACTIVE ∧
    (c1s4.orders 23).status = .ACTIVE ∧
    (c1s4.orders 23).pricePerShare ≤ (c1s4.orders 22).pricePerShare :=
  ⟨rfl, rfl, rfl, rfl, rfl, by decide⟩

/-- C3 (failing evaluation): one matchOrders call on `c3Start` executes two
trades of value 1000 each at a 100 bp fee rate; each seller credit is
990 = 1000 − 10, so 20 of fees are deducted in total, but TradeFeeAmount
rises from 0 to only 10 — the loop overwrites `feeAmount` with each
trade's fee instead of accumulating, and the wrapper adds only the
returned value. -/
theorem fee_pool_misses_earlier_trade_fees :
    okTrades (matchOrders c3Start 9 1) = some 2 ∧
    (c3s1.projectTrades 1).map
        (fun t => t.totalValue * c3Start.TRADING_FEE_RATE / 10000) = [10, 10] ∧
    c3s1.balances 50 4 = 1980 ∧
    c3Start.TradeFeeAmount = 0 ∧
    c3s1.TradeFeeAmount = 10 ∧
    c3s1.TradeFeeAmount ≠ 10 + 10 :=
  ⟨rfl, rfl, rfl, rfl, rfl, by decide⟩

/-- On a book with no possible match the matching loop stops at once,
changing nothing and reporting the accumulators it was given. -/
theorem matchLoop_no_cross (s : FState) (projectId : Nat) (h : noCross s projectId)
    (fuel now rate ctr t f : Nat) :
    matchLoop fuel s now projectId rate ctr t f = .ok (s, t, f) := by
  cases fuel with
  | zero => rfl
  | succ fuel' =>
    unfold matchLoop
    cases hb : s.projectBuyOrders projectId with
    | nil => rfl
    | cons b bs =>
      cases hs : s.projectSellOrders projectId with
      | nil => rfl
      | cons a as =>
        dsimp only
        rw [if_neg]
        rintro ⟨hle, hbA, haA⟩
        have hlt := h b (by rw [hb]; exact List.mem_cons_self _ _)
          a (by rw [hs]; exact List.mem_cons_self _ _) hbA haA
        omega

/-- C9 (amended): on a project whose book has no possible match, a
matchOrders call executes zero trades, reports zero fees, and leaves the
whole engine state unchanged EXCEPT that the global tradeCounter is
incremented by one. -/
theorem matchOrders_noop_except_tradeCounter (s : FState) (now projectId : Nat)
    (hp : s.factoryPaused = false) (h : noCross s projectId) :
    matchOrders s now projectId =
      .ok ({ s with tradeCounter := s.tradeCounter + 1 }, 0, 0) := by
  simp [matchOrders, hp, matchOrdersForProject, matchLoop_no_cross s projectId h]

/-- Witness for `matchOrders_noop_except_tradeCounter` at the empty book. -/
theorem matchOrders_noop_witness :
    matchOrders emptyState 0 1 = .ok ({ emptyState with tradeCounter := 2 }, 0, 0) :=
  matchOrders_noop_except_tradeCounter emptyState 0 1 rfl
    (by intro b hb; simp [emptyState] at hb)

/-- C9 (counterexample): on the freshly constructed engine (empty book for
project 1, so no match is possible) a matchOrders call does NOT leave the
engine state unchanged, and a second call does not yield the state of the
first: tradeCounter increments on every call. -/
theorem matchOrders_changes_state_on_matched_book :
    callOp (.matchOrdersOp 1) 0 0 emptyState ≠ emptyState ∧
    callOp (.matchOrdersOp 1) 0 0 (callOp (.matchOrdersOp 1) 0 0 emptyState) ≠
      callOp (.matchOrdersOp 1) 0 0 emptyState := by
  constructor
  · intro h
    exact absurd (congrArg FState.tradeCounter h) (by decide)
  · intro h
    exact absurd (congrArg FState.tradeCounter h) (by decide)

/-- C8: every public operation is atomic with respect to errors.  The step
functions thread state in source order and propagate every failed check —
no operation catches an inner failure — so at the call boundary a reverted
call leaves the engine state exactly as it started. -/
theorem reverted_op_preserves_state (op : Op) (caller now : Nat) (s : FState)
    (e : Err) (h : runOp op caller now s = .error e) :
    callOp op caller now s = s := by
  unfold callOp
  rw [h]

/-- Witness for `reverted_op_preserves_state`: buying shares of a
nonexistent project fails with ProjectNotFound and changes nothing. -/
theorem reverted_op_preserves_state_witness :
    runOp (.buySharesOp 5 1) 3 0 emptyState = .error .projectNotFound ∧
    callOp (.buySharesOp 5 1) 3 0 emptyState = emptyState :=
  ⟨rfl, reverted_op_preserves_state (.buySharesOp 5 1) 3 0 emptyState .projectNotFound rfl⟩

/-- C6: withdrawFunds on an existing project succeeds only when the caller
is the founder (unverified project) or holds an admin role (verified
project) and 0 < amount ≤ availableFunds, in which case availableFunds
drops by exactly amount; every failure is an authorization error
(NotProjectFounder / NotFactoryAdmin) or an insufficient-funds error
(ZeroAmount / NotEnoughFunds / the currency ledger's balance failure). -/
theorem withdraw_authorization (s : FState) (caller projectId amount toAddr : Nat)
    (hex : (s.projects projectId).existsFlag = true) :
    (∀ s', withdrawFunds s caller projectId amount toAddr = .ok s' →
      ((s.projects projectId).verified = false → caller = (s.projects projectId).founder) ∧
      ((s.projects projectId).verified = true →
        (s.roles ADMIN_ROLE caller || s.roles DEFAULT_ADMIN_ROLE caller) = true) ∧
      0 < amount ∧ amount ≤ (s.projects projectId).availableFunds ∧
      (s'.projects projectId).availableFunds =
        (s.projects projectId).availableFunds - amount) ∧
    (∀ e, withdrawFunds s caller projectId amount toAddr = .error e →
      e = .notProjectFounder ∨ e = .notFactoryAdmin ∨
      e = .zeroAmount ∨ e = .notEnoughFunds ∨ e = .erc20InsufficientBalance) := by
  constructor
  · intro s' h
    unfold withdrawFunds at h
    simp only [hex, Bool.true_eq_false, if_false] at h
    split at h
    · -- unverified branch
      rename_i hver
      split at h
      · exact absurd h (by simp)
      · rename_i hfounder
        split at h
        · exact absurd h (by simp)
        · rename_i hamount
          split at h
          · exact absurd h (by simp)
          · rename_i hfunds
            unfold erc20Transfer at h
            split at h
            · exact absurd h (by simp)
            · injection h with h
              subst h
              refine ⟨fun _ => by omega, fun hv => by rw [hv] at hver; simp at hver,
                      by omega, by omega, ?_⟩
              simp [upd]
    · -- verified branch
      rename_i hver
      split at h
      · exact absurd h (by simp)
      · rename_i hadmin
        split at h
        · exact absurd h (by simp)
        · rename_i hamount
          split at h
          · exact absurd h (by simp)
          · rename_i hfunds
            unfold erc20Transfer at h
            split at h
            · exact absurd h (by simp)
            · injection h with h
              subst h
              refine ⟨fun hv => by rw [hv] at hver; simp at hver,
                      fun _ => by revert hadmin; cases (s.roles ADMIN_ROLE caller || s.roles DEFAULT_ADMIN_ROLE caller) <;> simp, by omega, by omega, ?_⟩
              simp [upd]
  · intro e h
    unfold withdrawFunds at h
    simp only [hex, Bool.true_eq_false, if_false] at h
    split at h
    · split at h
      · injection h with h; exact Or.inl h.symm
      · split at h
        · injection h with h; exact Or.inr (Or.inr (Or.inl h.symm))
        · split at h
          · injection h with h; exact Or.inr (Or.inr (Or.inr (Or.inl h.symm)))
          · unfold erc20Transfer at h
            split at h
            · injection h with h
              exact Or.inr (Or.inr (Or.inr (Or.inr h.symm)))
            · exact absurd h (by simp)
    · split at h
      · injection h with h; exact Or.inr (Or.inl h.symm)
      · split at h
        · injection h with h; exact Or.inr (Or.inr (Or.inl h.symm))
        · split at h
          · injection h with h; exact Or.inr (Or.inr (Or.inr (Or.inl h.symm)))
          · unfold erc20Transfer at h
            split at h
            · injection h with h
              exact Or.inr (Or.inr (Or.inr (Or.inr h.symm)))
            · exact absurd h (by simp)

/-- Witness for `withdraw_authorization`: the founder withdraws 200 of the
500 available funds of the unverified project 1. -/
theorem withdraw_authorization_witness :
    (c6res.projects 1).availableFunds = (c6Start.projects 1).availableFunds - 200 :=
  ((withdraw_authorization c6Start 2 1 200 0 rfl).1 c6res rfl).2.2.2.2

/-- C10: a successful withdrawFunds with the zero address as recipient
transfers the funds to the project's founder when the project is
unverified, and to the calling administrator when it is verified (the
transfer appended to the log names that default recipient). -/
theorem zero_recipient_defaults (s : FState) (caller projectId amount : Nat) (s' : FState)
    (hex : (s.projects projectId).existsFlag = true)
    (h : withdrawFunds s caller projectId amount 0 = .ok s') :
    s'.log = s.log ++ [⟨(s.projects projectId).purchaseToken, thisAddr,
      (if (s.projects projectId).verified = true then caller
       else (s.projects projectId).founder), amount⟩] := by
  unfold withdrawFunds at h
  simp only [hex, Bool.true_eq_false, if_false] at h
  split at h
  · rename_i hver
    split at h
    · exact absurd h (by simp)
    · split at h
      · exact absurd h (by simp)
      · split at h
        · exact absurd h (by simp)
        · unfold erc20Transfer at h
          split at h
          · exact absurd h (by simp)
          · injection h with h
            subst h
            simp [hver]
  · rename_i hver
    split at h
    · exact absurd h (by simp)
    · split at h
      · exact absurd h (by simp)
      · split at h
        · exact absurd h (by simp)
        · unfold erc20Transfer at h
          split at h
          · exact absurd h (by simp)
          · injection h with h
            subst h
            simp at hver
            simp [hver]

/-- Witness for `zero_recipient_defaults`: the founder's withdrawal of 200
from the unverified project 1 with recipient 0 pays the founder
(address 2). -/
theorem zero_recipient_defaults_witness :
    c6res.log = c6Start.log ++ [⟨50, thisAddr, 2, 200⟩] := by
  have h := zero_recipient_defaults c6Start 2 1 200 c6res rfl rfl
  simpa using h

/-- The bookkeeping half of a trade appends exactly one Trade record (built
from the two orders, the traded quantity and the resting sell price), does
not touch the transfer log, and passes the fee through. -/
theorem executeTradeFinish_spec (s3 : FState) (now pid bId sId ctr sh fee : Nat)
    (bo so : Order) (s' : FState) (fee' : Nat)
    (h : executeTradeFinish s3 now pid bId sId ctr sh fee bo so = .ok (s', fee')) :
    s'.projectTrades pid = s3.projectTrades pid ++
      [⟨mkTradeId now pid bId sId ctr, bId, sId, bo.trader, so.trader, sh,
        so.pricePerShare, sh * so.pricePerShare, now⟩] ∧
    s'.log = s3.log ∧ fee' = fee := by
  unfold executeTradeFinish at h
  injection h with h
  injection h with h1 h2
  subst h1; subst h2
  refine ⟨?_, ?_, rfl⟩
  · split <;> split <;> simp [upd]
  · split <;> split <;> simp

/-- The source's conditional minimum equals `min`. -/
theorem ite_lt_min (a b : Nat) : (if a < b then a else b) = min a b := by
  rcases Nat.lt_or_ge a b with h | h
  · rw [if_pos h, Nat.min_eq_left (Nat.le_of_lt h)]
  · rw [if_neg (Nat.not_lt.mpr h), Nat.min_eq_right h]

/-- A successful plain ERC-20 transfer changes only balances and the log,
appending exactly its own entry. -/
theorem erc20Transfer_fields (s : FState) (t a b c : Nat) (s' : FState)
    (h : erc20Transfer s t a b c = .ok s') :
    s'.projects = s.projects ∧ s'.orders = s.orders ∧
    s'.userOrders = s.userOrders ∧ s'.projectBuyOrders = s.projectBuyOrders ∧
    s'.projectSellOrders = s.projectSellOrders ∧ s'.projectTrades = s.projectTrades ∧
    s'.projectMarketStats = s.projectMarketStats ∧
    s'.log = s.log ++ [⟨t, a, b, c⟩] := by
  unfold erc20Transfer at h
  split at h
  · exact absurd h (by simp)
  · injection h with h
    subst h
    exact ⟨rfl, rfl, rfl, rfl, rfl, rfl, rfl, rfl⟩

/-- A successful EquityToken transfer has the same footprint. -/
theorem equityTransfer_fields (s : FState) (t a b c : Nat) (s' : FState)
    (h : equityTransfer s t a b c = .ok s') :
    s'.projects = s.projects ∧ s'.orders = s.orders ∧
    s'.userOrders = s.userOrders ∧ s'.projectBuyOrders = s.projectBuyOrders ∧
    s'.projectSellOrders = s.projectSellOrders ∧ s'.projectTrades = s.projectTrades ∧
    s'.projectMarketStats = s.projectMarketStats ∧
    s'.log = s.log ++ [⟨t, a, b, c⟩] := by
  unfold equityTransfer at h
  split at h
  · exact absurd h (by simp)
  · exact erc20Transfer_fields s t a b c s' h

set_option maxHeartbeats 1000000 in
/-- C2: every trade executed by _executeTrade records the resting sell
order's limit price as the execution price and
min(buyRemaining, sellRemaining) as the quantity, and when the buy order's
limit price exceeds the execution price (and the quantity is positive) the
final settlement transfer refunds the buyer exactly
tradedShares × (buyPrice − sellPrice) of escrowed purchase currency. -/
theorem trade_sell_price_min_qty_refund (s : FState)
    (now projectId buyOrderId sellOrderId rate ctr : Nat) (s' : FState) (fee : Nat)
    (h : executeTrade s now projectId buyOrderId sellOrderId rate ctr = .ok (s', fee)) :
    ∃ t : Trade,
      s'.projectTrades projectId = s.projectTrades projectId ++ [t] ∧
      t.pricePerShare = (s.orders sellOrderId).pricePerShare ∧
      t.shares = min (s.orders buyOrderId).sharesRemaining
                   (s.orders sellOrderId).sharesRemaining ∧
      fee = t.shares * t.pricePerShare * rate / 10000 ∧
      ((s.orders sellOrderId).pricePerShare < (s.orders buyOrderId).pricePerShare →
        0 < t.shares →
        s'.log.getLast? = some ⟨(s.projects projectId).purchaseToken, thisAddr,
          (s.orders buyOrderId).trader,
          t.shares * ((s.orders buyOrderId).pricePerShare -
                      (s.orders sellOrderId).pricePerShare)⟩) := by
  unfold executeTrade at h
  dsimp only at h
  split at h
  · exact absurd h (by simp)
  · rename_i s1 h1
    split at h
    · exact absurd h (by simp)
    · rename_i s2 h2
      split at h
      · exact absurd h (by simp)
      · rename_i s3 h3
        obtain ⟨ht, hlog, hfee⟩ :=
          executeTradeFinish_spec _ _ _ _ _ _ _ _ _ _ _ _ h
        have e1 := (equityTransfer_fields _ _ _ _ _ _ h1).2.2.2.2.2.1
        have e2 := (erc20Transfer_fields _ _ _ _ _ _ h2).2.2.2.2.2.1
        have e3 : s3.projectTrades = s2.projectTrades := by
          split at h3 <;> split at h3 <;>
            first
              | exact (erc20Transfer_fields _ _ _ _ _ _ h3).2.2.2.2.2.1
              | (injection h3 with h3; subst h3; rfl)
        have hpt : s3.projectTrades projectId = s.projectTrades projectId := by
          rw [e3, e2, e1]
        rw [hpt] at ht
        refine ⟨_, ht, rfl, ite_lt_min _ _, hfee, ?_⟩
        intro hlt hpos
        rw [ite_lt_min] at hpos
        have hcross :
            (if (s.orders buyOrderId).sharesRemaining < (s.orders sellOrderId).sharesRemaining
             then (s.orders buyOrderId).sharesRemaining
             else (s.orders sellOrderId).sharesRemaining) * (s.orders sellOrderId).pricePerShare <
            (if (s.orders buyOrderId).sharesRemaining < (s.orders sellOrderId).sharesRemaining
             then (s.orders buyOrderId).sharesRemaining
             else (s.orders sellOrderId).sharesRemaining) * (s.orders buyOrderId).pricePerShare := by
          rw [ite_lt_min]
          exact Nat.mul_lt_mul_of_le_of_lt (Nat.le_refl _) hlt hpos
        rw [if_pos hcross] at h3
        unfold erc20Transfer at h3
        rw [hlog]
        split at h3
        · rename_i hmin
          split at h3
          · exact absurd h3 (by simp)
          · injection h3 with h3
            subst h3
            simp [if_pos hmin, Nat.mul_sub]
        · rename_i hmin
          split at h3
          · exact absurd h3 (by simp)
          · injection h3 with h3
            subst h3
            simp [if_neg hmin, Nat.mul_sub]

/-- Witness for `trade_sell_price_min_qty_refund`: the 80-share trade at
price 10 against the limit-12 buy refunds the buyer 80 × (12 − 10) = 160. -/
theorem trade_sell_price_min_qty_refund_witness :
    c2res.log.getLast? = some ⟨50, thisAddr, 3, 160⟩ := by
  obtain ⟨t, h1, h2, h3, h4, h5⟩ :=
    trade_sell_price_min_qty_refund c2Start 7 1 41 42 25 1 c2res 2 rfl
  have hr := h5 (by decide) (by rw [h3]; decide)
  rw [h3] at hr
  simpa using hr

/-- Updating a key outside the list leaves the mapped balances unchanged. -/
theorem map_upd_not_mem {bal : Nat → Nat} {a v : Nat} {l : List Nat} (h : a ∉ l) :
    l.map (upd bal a v) = l.map bal := by
  induction l with
  | nil => rfl
  | cons x xs ih =>
    have hxa : x ≠ a := by
      intro e
      exact h (by rw [← e]; exact List.mem_cons_self x xs)
    simp only [List.map_cons]
    rw [upd_other _ _ _ _ hxa, ih (fun hx => h (List.mem_cons_of_mem _ hx))]

/-- Writing `v` at a listed holder changes the holder sum by `v − bal a`. -/
theorem sumBal_upd {H : List Nat} (hnd : H.Nodup) (bal : Nat → Nat) {a : Nat}
    (ha : a ∈ H) (v : Nat) :
    sumBal (upd bal a v) H + bal a = sumBal bal H + v := by
  induction H with
  | nil => cases ha
  | cons x xs ih =>
    rcases List.mem_cons.mp ha with h | h
    · subst h
      have hna : a ∉ xs := (List.nodup_cons.mp hnd).1
      simp only [sumBal, List.map_cons, List.sum_cons, upd_same, map_upd_not_mem hna]
      omega
    · have hxa : x ≠ a := by
        intro e
        subst e
        exact (List.nodup_cons.mp hnd).1 h
      have hih := ih (List.nodup_cons.mp hnd).2 h
      simp only [sumBal, List.map_cons, List.sum_cons] at hih ⊢
      rw [upd_other _ _ _ _ hxa]
      omega

/-- The zero ledger sums to zero. -/
theorem sumBal_zero (H : List Nat) : sumBal (fun _ => 0) H = 0 := by
  induction H <;> simp [sumBal, *]

/-- One token call preserves `sum of balances + mintable remainder` over
any duplicate-free holder set containing the touched addresses. -/
theorem tokStep_invariant (H : List Nat) (hnd : H.Nodup) (s : TokState) (op : TokOp)
    (hop : op.addrs ⊆ H) :
    sumBal (tokStep s op).bal H + (tokStep s op).toSell = sumBal s.bal H + s.toSell := by
  cases op with
  | mint dst amount =>
    have hdst : dst ∈ H := hop (by simp [TokOp.addrs])
    simp only [tokStep]
    split
    · rfl
    · rename_i hle
      have h1 := sumBal_upd hnd s.bal hdst (s.bal dst + amount)
      dsimp only
      omega
  | transfer src dst amount =>
    have hsrc : src ∈ H := hop (by simp [TokOp.addrs])
    have hdst : dst ∈ H := hop (by simp [TokOp.addrs])
    simp only [tokStep]
    split
    · rfl
    · rename_i hle
      dsimp only
      have h1 := sumBal_upd hnd s.bal hsrc (s.bal src - amount)
      have h2 := sumBal_upd hnd (upd s.bal src (s.bal src - amount)) hdst
                  ((upd s.bal src (s.bal src - amount)) dst + amount)
      omega

/-- The conserved quantity of `tokStep_invariant`, along any sequence. -/
theorem runToks_invariant (H : List Nat) (hnd : H.Nodup) (l : List TokOp) (s : TokState)
    (hops : ∀ op ∈ l, op.addrs ⊆ H) :
    sumBal (runToks s l).bal H + (runToks s l).toSell = sumBal s.bal H + s.toSell := by
  induction l generalizing s with
  | nil => rfl
  | cons op rest ih =>
    rw [runToks, ih (tokStep s op) (fun o ho => hops o (List.mem_cons_of_mem _ ho))]
    exact tokStep_invariant H hnd s op (hops op (List.mem_cons_self _ _))

/-- C5 (amended): for every EquityToken deployed with
`sharesToSell + platformFee ≤ TOTAL_SHARES` and every sequence of mints and
transfers over a duplicate-free holder universe containing the factory and
the founder, the sum of all equity balances plus the still-unminted
sellable remainder equals TOTAL_SHARES — i.e. holdings equal
`totalShares − unsold sellable shares`, reaching `totalShares` only once
the sellable pool is exhausted. -/
theorem equity_supply_conservation (H : List Nat) (owner sharesToSell platformFee : Nat)
    (l : List TokOp) (hnd : H.Nodup) (hthis : thisAddr ∈ H) (howner : owner ∈ H)
    (hops : ∀ op ∈ l, op.addrs ⊆ H)
    (hcap : sharesToSell + platformFee ≤ TOTAL_SHARES) :
    sumBal (runToks (tokInit owner sharesToSell platformFee) l).bal H
      + (runToks (tokInit owner sharesToSell platformFee) l).toSell = TOTAL_SHARES := by
  rw [runToks_invariant H hnd l _ hops]
  unfold tokInit
  dsimp only
  have h0 := sumBal_zero H
  have hz : (fun _ : Nat => 0) thisAddr = 0 := rfl
  have h1 := sumBal_upd hnd (fun _ => 0) hthis platformFee
  have h2 := sumBal_upd hnd (upd (fun _ => 0) thisAddr platformFee) howner
              ((upd (fun _ => 0) thisAddr platformFee) owner
                + (TOTAL_SHARES - sharesToSell - platformFee))
  omega

/-- Witness for `equity_supply_conservation`: holders [1, 2, 3], founder 2,
sharesToSell 1000, platform fee 10, followed by a primary-sale mint of 700
to buyer 3 and a transfer of 5 shares from the founder to 3. -/
theorem equity_supply_conservation_witness :
    sumBal (runToks (tokInit 2 1000 10) [.mint 3 700, .transfer 2 3 5]).bal [1, 2, 3]
      + (runToks (tokInit 2 1000 10) [.mint 3 700, .transfer 2 3 5]).toSell
      = TOTAL_SHARES :=
  equity_supply_conservation [1, 2, 3] 2 1000 10 [.mint 3 700, .transfer 2 3 5]
    (by decide) (by decide) (by decide) (by decide) (by decide)

/-- C5 (counterexample): directly after `createProject` in the C4 scene
(sharesToSell = 100000 shares, platform fee 0), the only two addresses ever
credited with the new equity token (the factory and the founder) hold
`TOTAL_SHARES − 100000·10^18` in total — the project's totalShares minus
the still-unminted sellable pool — which is NOT the project's totalShares. -/
theorem equity_holdings_below_totalShares :
    sumBal (c4s1.balances 100) [thisAddr, 2] + c4s1.tokSharesToSell 100 = TOTAL_SHARES ∧
    (c4s1.projects 1).totalShares = TOTAL_SHARES ∧
    sumBal (c4s1.balances 100) [thisAddr, 2] ≠ (c4s1.projects 1).totalShares :=
  ⟨rfl, rfl, by decide⟩
